import Mathlib

/-!
Shallow embedding of the cloudportal task views (src/apps/tasks/views.py) and
the email utility (src/config/email.py), together with theorems checking the
recurrence-engine specification against the code.

Persistent state is the table of Task rows plus the autoincrement counter;
each Django view is a function from a state (and the request-supplied data)
to an `Option State`, where `none` models a 404 response.
-/

namespace Cloudportal

/-- Calendar date (year, month, day), embedding Python `datetime.date`. -/
structure Date where
  year : Nat
  month : Nat
  day : Nat
deriving DecidableEq, Repr

/-- Leap-year test of the proleptic Gregorian calendar. -/
def isLeap (y : Nat) : Bool :=
  (y % 4 == 0 && y % 100 != 0) || y % 400 == 0

/-- Days in the months strictly before month `m` (1-based) of year `y`. -/
def daysBeforeMonth (y m : Nat) : Nat :=
  let base :=
    if m ≤ 1 then 0
    else if m == 2 then 31
    else if m == 3 then 59
    else if m == 4 then 90
    else if m == 5 then 120
    else if m == 6 then 151
    else if m == 7 then 181
    else if m == 8 then 212
    else if m == 9 then 243
    else if m == 10 then 273
    else if m == 11 then 304
    else 334
  if 3 ≤ m && isLeap y then base + 1 else base

/-- Proleptic Gregorian ordinal of a date (0001-01-01 has ordinal 1),
as in Python `date.toordinal()`. -/
def toOrdinal (d : Date) : Nat :=
  365 * (d.year - 1) + (d.year - 1) / 4 - (d.year - 1) / 100 + (d.year - 1) / 400
    + daysBeforeMonth d.year d.month + d.day

/-- Python `date.weekday()`: 0 = Monday .. 6 = Sunday. -/
def weekday (d : Date) : Nat :=
  (toOrdinal d + 6) % 7

/-- Time of day, embedding Python `datetime.time` at minute precision. -/
structure TimeOfDay where
  hour : Nat
  minute : Nat
deriving DecidableEq, Repr

/-- Folder row: an external collaborator entity; only identity and name are
needed by the embedded code. -/
structure Folder where
  id : Nat
  name : String
deriving DecidableEq, Repr

/-- Modelled from the spec: the Task row fields (apps/tasks/models.py is not
part of src/); field list and meanings follow spec section 3 and the field
accesses in src/apps/tasks/views.py. `status` is 0 = Pending, 1 = Complete;
`parent_task` holds the id of the template row when this row is an instance. -/
structure Task where
  id : Nat
  user : Nat
  folder : Option Folder
  title : String
  priority : Nat
  status : Nat
  due_date : Option Date
  due_time : Option TimeOfDay
  completed_date : Option Date
  archived : Bool
  is_recurring : Bool
  recurrence_type : Option String
  recurrence_day : Option Nat
  recurrence_month : Option Nat
  last_generated : Option Date
  parent_task : Option Nat
deriving DecidableEq, Repr

/-- Modelled from the spec: defaults of Task fields not listed in a
`Task.objects.create(...)` call (apps/tasks/models.py is not part of src/). -/
def defaultTask : Task :=
  { id := 0, user := 0, folder := none, title := "", priority := 1, status := 0,
    due_date := none, due_time := none, completed_date := none, archived := false,
    is_recurring := false, recurrence_type := none, recurrence_day := none,
    recurrence_month := none, last_generated := none, parent_task := none }

/-- The persistence store: the Task table plus the autoincrement counter. -/
structure State where
  tasks : List Task
  nextId : Nat
deriving DecidableEq, Repr

/-- `Task.objects.filter(pk=id).get()` / `get_object_or_404(Task, pk=id)`. -/
def findTask (s : State) (id : Nat) : Option Task :=
  s.tasks.find? (fun t => t.id == id)

/-- `task.save()`: write the in-memory object back over the row with its id. -/
def saveTask (s : State) (t : Task) : State :=
  { s with tasks := s.tasks.map (fun u => if u.id == t.id then t else u) }

/-- `Task.objects.create(...)`: append a fresh row with the next id. -/
def createTask (s : State) (t : Task) : State :=
  { s with tasks := s.tasks ++ [{ t with id := s.nextId }], nextId := s.nextId + 1 }

/-- `task.title[0].upper() + task.title[1:]` (views.py capitalises on save). -/
def capitalize (str : String) : String :=
  match str.data with
  | [] => str
  | c :: cs => String.mk (Char.toUpper c :: cs)

/- ================= config/email.py ================= -/

/-- Modelled from the spec: the CustomUser fields read by config/email.py
(accounts/models.py is not part of src/). The empty string stands for a
missing address, matching Python falsiness of `""` in `a or b`. -/
structure EmailUser where
  notification_email : String
  email : String
deriving DecidableEq, Repr

/-- The `{success: bool, error?: string}` outcome dict of the email helpers. -/
structure EmailResult where
  success : Bool
  error : Option String
deriving DecidableEq, Repr

/-- The mail collaborator `send_mail(subject, body, from_email, recipients)`:
either succeeds or raises, modelled as an `Except`-valued function. -/
abbrev Transport : Type := String → String → String → List String → Except String Unit

/-- Python `time.strftime("%-I:%M %p")`. -/
def formatTime12 (t : TimeOfDay) : String :=
  let h12 := if t.hour % 12 == 0 then 12 else t.hour % 12
  let mm := if t.minute < 10 then "0" ++ toString t.minute else toString t.minute
  let ap := if t.hour < 12 then "AM" else "PM"
  toString h12 ++ ":" ++ mm ++ " " ++ ap

/-- English month name, for `date.strftime("%B ...")`. -/
def monthName (m : Nat) : String :=
  if m == 1 then "January"
  else if m == 2 then "February"
  else if m == 3 then "March"
  else if m == 4 then "April"
  else if m == 5 then "May"
  else if m == 6 then "June"
  else if m == 7 then "July"
  else if m == 8 then "August"
  else if m == 9 then "September"
  else if m == 10 then "October"
  else if m == 11 then "November"
  else "December"

/-- Python `date.strftime("%B %-d, %Y")`. -/
def formatDateLong (d : Date) : String :=
  monthName d.month ++ " " ++ toString d.day ++ ", " ++ toString d.year

/-- `_build_body` of config/email.py. -/
def buildBody (site_name : String) (task : Task) (reminder_type : String) : String :=
  let lines : List String :=
    if reminder_type == "due_today" then
      ["Your task \"" ++ task.title ++ "\" is due today."]
    else if reminder_type == "due_soon" then
      let time_str := match task.due_time with
        | some t => formatTime12 t
        | none => ""
      ["Your task \"" ++ task.title ++ "\" is due soon at " ++ time_str ++ "."]
    else if reminder_type == "overdue" then
      ["Your task \"" ++ task.title ++ "\" is overdue."]
    else []
  let lines := lines ++ [""]
  let lines := match task.due_date with
    | some d => lines ++ ["Due date: " ++ formatDateLong d]
    | none => lines
  let lines := match task.due_time with
    | some t => lines ++ ["Due time: " ++ formatTime12 t]
    | none => lines
  let lines := match task.folder with
    | some f => lines ++ ["Folder: " ++ f.name]
    | none => lines
  let lines := lines ++ ["", "-- " ++ site_name]
  String.intercalate "\n" lines

/-- `send_task_reminder_email` of config/email.py. -/
def send_task_reminder_email (send_mail : Transport) (server_email site_name : String)
    (user : EmailUser) (task : Task) (reminder_type : String) : EmailResult :=
  let recipient :=
    if user.notification_email != "" then user.notification_email else user.email
  if recipient == "" then
    { success := false, error := some "User has no email address" }
  else
    let subject :=
      if reminder_type == "due_today" then "Task Due Today: " ++ task.title
      else if reminder_type == "due_soon" then "Task Due Soon: " ++ task.title
      else if reminder_type == "overdue" then "Overdue Task: " ++ task.title
      else "Task Reminder: " ++ task.title
    let body := buildBody site_name task reminder_type
    match send_mail subject body server_email [recipient] with
    | Except.ok _ => { success := true, error := none }
    | Except.error e => { success := false, error := some e }

/-- One line of the past-due digest body. -/
def digestLine (t : Task) : String :=
  let parts := ["- " ++ t.title]
  let parts := match t.due_date with
    | some d => parts ++ ["(due " ++ formatDateLong d ++ ")"]
    | none => parts
  let parts := match t.folder with
    | some f => parts ++ ["[" ++ f.name ++ "]"]
    | none => parts
  String.intercalate " " parts

/-- `send_past_due_digest_email` of config/email.py. -/
def send_past_due_digest_email (send_mail : Transport) (server_email site_name : String)
    (user : EmailUser) (tasks : List Task) : EmailResult :=
  let recipient :=
    if user.notification_email != "" then user.notification_email else user.email
  if recipient == "" then
    { success := false, error := some "User has no email address" }
  else
    let lines := ["You have the following past due tasks:", ""]
      ++ tasks.map digestLine ++ ["", "-- " ++ site_name]
    let body := String.intercalate "\n" lines
    match send_mail "Past Due Tasks" body server_email [recipient] with
    | Except.ok _ => { success := true, error := none }
    | Except.error e => { success := false, error := some e }

/- ================= apps/tasks/views.py ================= -/

/-- The validated TaskForm payload. Modelled from the spec: the form class
itself (apps/tasks/forms.py) is not part of src/; spec section 6 lists the
field names `folder, title, priority, due_date, due_time, recurrence, status`.
`recurrence` is a form-only field (views read it from `cleaned_data` and store
it into `recurrence_type` themselves); the empty string means cleared. -/
structure FormData where
  folder : Option Folder
  title : String
  priority : Nat
  due_date : Option Date
  due_time : Option TimeOfDay
  status : Nat
  recurrence : String
deriving DecidableEq, Repr

/-- `form.save(commit=False)` followed by `task.user = user` and the title
capitalisation, as in `edit` / `task_form`. -/
def formSave (user : Nat) (fd : FormData) (t : Task) : Task :=
  { t with
    user := user, folder := fd.folder, title := capitalize fd.title,
    priority := fd.priority, due_date := fd.due_date, due_time := fd.due_time,
    status := fd.status }

/-- The status flip of `status` / `status_htmx` (views.py lines 115-120 and
603-608): toggle between Pending and Complete, stamping or clearing
`completed_date`. -/
def toggleStatus (today : Date) (t : Task) : Task :=
  if t.status == 1 then { t with status := 0, completed_date := none }
  else { t with status := 1, completed_date := some today }

/-- The `status` view (plain-page variant, views.py lines 101-122): toggle and
save; it has no recurrence side effect. `none` models the 404 response. -/
def statusPlain (today : Date) (s : State) (id : Nat) : Option State :=
  match findTask s id with
  | none => none
  | some t => some (saveTask s (toggleStatus today t))

/-- A pending, non-archived instance of the template with id `pid` — the
row predicate of the `status_htmx` existence check (views.py lines 615-617)
and of the spec invariant. -/
def isActivePendingOf (pid : Nat) (t : Task) : Bool :=
  t.parent_task == some pid && t.status == 0 && t.archived == false

/-- The pending-instance existence check of `status_htmx` (views.py
lines 615-617): `Task.objects.filter(parent_task=parent, status=0,
archived=False).exists()`. -/
def hasPendingInstance (s : State) (pid : Nat) : Bool :=
  s.tasks.any (isActivePendingOf pid)

/-- The instance row created by `status_htmx` on completion (views.py
lines 619-628): fields copied from the template, `due_date = today`. -/
def spawnInstance (today : Date) (parent : Task) : Task :=
  { defaultTask with
    user := parent.user, folder := parent.folder,
    title := parent.title, priority := parent.priority, status := 0,
    due_date := some today, due_time := parent.due_time,
    parent_task := some parent.id }

/-- The `status_htmx` view (views.py lines 599-633), which is the
`apply_completion_toggle` engine operation of the spec: toggle the task, and
on a transition to Complete of a task with a parent template that is recurring
and not archived, spawn one new instance when no pending non-archived instance
exists, stamping the template's `last_generated`. -/
def apply_completion_toggle (today : Date) (s : State) (id : Nat) : Option State :=
  match findTask s id with
  | none => none
  | some t =>
    let t' := toggleStatus today t
    let s1 := saveTask s t'
    if t'.status == 1 then
      match t'.parent_task with
      | none => some s1
      | some pid =>
        match findTask s1 pid with
        | none => some s1
        | some parent =>
          if parent.is_recurring && !parent.archived then
            if hasPendingInstance s1 pid then some s1
            else
              let s2 := createTask s1 (spawnInstance today parent)
              some (saveTask s2 { parent with last_generated := some today })
          else some s1
    else some s1

/-- The recurrence-field derivation block (views.py lines 193-202, 217-226,
512-521, 531-540): recompute `recurrence_day` / `recurrence_month` from the
due date when one is present, else keep the existing values. -/
def applyDerivation (rec : String) (dd : Option Date) (day0 mon0 : Option Nat) :
    Option Nat × Option Nat :=
  match dd with
  | none => (day0, mon0)
  | some d =>
    if rec == "daily" then (none, mon0)
    else if rec == "monthly" then (some d.day, mon0)
    else if rec == "weekly" then (some (weekday d), mon0)
    else if rec == "yearly" then (some d.day, some d.month)
    else (day0, mon0)

/-- Sort key for `order_by("-due_date")`: a null due date sorts last in the
descending order, a concrete date by its ordinal. -/
def ddKey : Option Date → Nat
  | none => 0
  | some d => toOrdinal d

/-- `.order_by("-due_date").first()`: the first row (in table order) among
those with the greatest due-date key. -/
def pickLatest (l : List Task) : Option Task :=
  l.foldl (fun acc u =>
    match acc with
    | none => some u
    | some a => if ddKey a.due_date < ddKey u.due_date then some u else acc) none

/-- `Task.objects.filter(parent_task=task, status=0).order_by("-due_date")
.first()` (views.py lines 254-258 and 565-569). -/
def latestPendingInstance (s : State) (pid : Nat) : Option Task :=
  pickLatest (s.tasks.filter (fun u => u.parent_task == some pid && u.status == 0))

/-- The first instance created when a task just became recurring (views.py
lines 239-248 and 552-561): fields copied from the edited task, including its
due date. -/
def firstInstanceFrom (t : Task) : Task :=
  { defaultTask with
    user := t.user, folder := t.folder, title := t.title,
    priority := t.priority, status := 0, due_date := t.due_date,
    due_time := t.due_time, parent_task := some t.id }

/-- The editing-a-recurring-instance branch (views.py lines 185-208, duplicated
verbatim at lines 504-526): save the instance, propagate folder/title/priority/
due_time to the captured template, then either re-derive the template's
recurrence fields, or — on cleared recurrence — delete the template and detach
the instance. -/
def editInstanceBranch (s : State) (fd : FormData) (task1 : Task) (pid : Nat) : State :=
  let s1 := saveTask s task1
  match findTask s pid with
  | none => s1
  | some parent0 =>
    let parent1 := { parent0 with
                     folder := task1.folder, title := task1.title,
                     priority := task1.priority, due_time := task1.due_time }
    if fd.recurrence == "" then
      let s2 := { s1 with tasks := s1.tasks.filter (fun u => !(u.id == pid)) }
      saveTask s2 { task1 with parent_task := none }
    else
      let pr := applyDerivation fd.recurrence task1.due_date
                  parent0.recurrence_day parent0.recurrence_month
      saveTask s1 { parent1 with
                    recurrence_type := some fd.recurrence,
                    recurrence_day := pr.1, recurrence_month := pr.2 }

/-- The editing-a-regular-task-or-template branch (views.py lines 211-264,
duplicated verbatim at lines 527-575): set or clear the recurrence fields and
save; if the task just became recurring create the first instance and stamp
`last_generated = today`; if it was already recurring sync the latest pending
instance. `editTask2` is the branch's `task2` local: the edited task with its
recurrence fields set or cleared (views.py lines 212-231 / 528-545). -/
def editTask2 (fd : FormData) (task1 : Task) : Task :=
  if fd.recurrence == "" then
    { task1 with
      is_recurring := false, recurrence_type := none,
      recurrence_day := none, recurrence_month := none }
  else
    let pr := applyDerivation fd.recurrence task1.due_date
                task1.recurrence_day task1.recurrence_month
    { task1 with
      is_recurring := true, recurrence_type := some fd.recurrence,
      recurrence_day := pr.1, recurrence_month := pr.2 }

/-- The save-then-spawn-or-sync step of the direct-edit branch (views.py
lines 233-264 / 547-575). -/
def editDirectBranch (today : Date) (s : State) (fd : FormData) (task1 : Task)
    (was_recurring : Bool) : State :=
  let task2 := editTask2 fd task1
  let s1 := saveTask s task2
  if task2.is_recurring && !was_recurring then
    let s2 := createTask s1 (firstInstanceFrom task2)
    saveTask s2 { task2 with last_generated := some today }
  else if task2.is_recurring && was_recurring then
    match latestPendingInstance s1 task2.id with
    | none => s1
    | some li =>
      saveTask s1 { li with
                    folder := task2.folder, title := task2.title,
                    priority := task2.priority, due_time := task2.due_time }
  else s1

/-- The `edit` view POST path (plain-page variant, views.py lines 154-266). -/
def applyEditPlain (today : Date) (s : State) (user : Nat) (id : Nat)
    (fd : FormData) : Option State :=
  match findTask s id with
  | none => none
  | some task0 =>
    let was_recurring := task0.is_recurring
    let task1 := formSave user fd task0
    match task0.parent_task with
    | some pid => some (editInstanceBranch s fd task1 pid)
    | none => some (editDirectBranch today s fd task1 was_recurring)

/-- The `task_form` view POST path (HTMX modal variant, views.py
lines 477-577). It differs from `edit` by the completed_date maintenance on a
status change (lines 498-501); the two recurrence branches are the same
verbatim-duplicated code. -/
def applyEditForm (today : Date) (s : State) (user : Nat) (id : Nat)
    (fd : FormData) : Option State :=
  match findTask s id with
  | none => none
  | some task0 =>
    let was_recurring := task0.is_recurring
    let old_status := task0.status
    let task1a := formSave user fd task0
    let task1 :=
      if task1a.status == 1 && !(old_status == 1) then
        { task1a with completed_date := some today }
      else if !(task1a.status == 1) && old_status == 1 then
        { task1a with completed_date := none }
      else task1a
    match task0.parent_task with
    | some pid => some (editInstanceBranch s fd task1 pid)
    | none => some (editDirectBranch today s fd task1 was_recurring)

/-- The `delete` view (views.py lines 300-309): the lookup filters on the
requesting user, so a task owned by someone else yields a 404 (`none`). -/
def deleteView (s : State) (requester : Nat) (id : Nat) : Option State :=
  match s.tasks.find? (fun t => t.id == id && t.user == requester) with
  | none => none
  | some _ => some { s with tasks := s.tasks.filter (fun u => !(u.id == id)) }

/-- The `delete_htmx` view (views.py lines 649-654): same lookup and delete as
`delete`, differing only in the response. -/
def deleteHtmxView (s : State) (requester : Nat) (id : Nat) : Option State :=
  match s.tasks.find? (fun t => t.id == id && t.user == requester) with
  | none => none
  | some _ => some { s with tasks := s.tasks.filter (fun u => !(u.id == id)) }

/-- The folder scoping of `bulk_status_htmx` (views.py lines 664-673):
the session either selects all folders, one folder, or no folder. -/
inductive BulkScope where
  | all : BulkScope
  | selected : Folder → BulkScope
  | noFolder : BulkScope
deriving DecidableEq, Repr

/-- Membership of a row in the `bulk_status_htmx` queryset. -/
def bulkMatches (requester : Nat) (scope : BulkScope) (t : Task) : Bool :=
  match scope with
  | BulkScope.all =>
      t.user == requester && t.is_recurring == false && t.archived == false
  | BulkScope.selected f =>
      t.folder == some f && t.is_recurring == false && t.archived == false
  | BulkScope.noFolder =>
      t.user == requester && t.folder == none
        && t.is_recurring == false && t.archived == false

/-- The `bulk_status_htmx` view (views.py lines 657-681): a bulk
`.update(status=..., completed_date=...)` over the scoped non-recurring,
non-archived rows; completing filters `status=0`, reverting filters
`status=1`. -/
def bulk_status_htmx (today : Date) (s : State) (requester : Nat)
    (scope : BulkScope) (new_status : Nat) : State :=
  { s with tasks := s.tasks.map (fun t =>
      if bulkMatches requester scope t then
        if new_status == 1 then
          (if t.status == 0 then { t with status := 1, completed_date := some today }
           else t)
        else
          (if t.status == 1 then { t with status := 0, completed_date := none }
           else t)
      else t) }

/- ================= invariant and sequencing ================= -/

/-- Number of pending, non-archived instances of template `pid`. -/
def pendingCount (s : State) (pid : Nat) : Nat :=
  (s.tasks.filter (isActivePendingOf pid)).length

/-- The spec invariant: for every template (recurring, no parent) at most one
pending, non-archived instance exists. -/
def atMostOnePending (s : State) : Prop :=
  ∀ t ∈ s.tasks, t.parent_task = none → t.is_recurring = true →
    pendingCount s t.id ≤ 1

/-- Store well-formedness: row ids are distinct and below the autoincrement
counter. -/
def WF (s : State) : Prop :=
  (s.tasks.map (fun t => t.id)).Nodup ∧ ∀ t ∈ s.tasks, t.id < s.nextId

/-- Run a sequence of completion toggles (a missing id is skipped). -/
def runCompletions (today : Date) (s : State) : List Nat → State
  | [] => s
  | id :: rest =>
    match apply_completion_toggle today s id with
    | none => runCompletions today s rest
    | some s' => runCompletions today s' rest

/-- Every toggle in the sequence hits an existing task that is Pending at that
moment (so each toggle is a Pending-to-Complete transition). -/
def pendingAtTurn (today : Date) (s : State) : List Nat → Bool
  | [] => true
  | id :: rest =>
    match findTask s id with
    | none => false
    | some t =>
      t.status != 1 &&
        (match apply_completion_toggle today s id with
         | none => false
         | some s' => pendingAtTurn today s' rest)

/- ================= concrete fixtures ================= -/

/-- A fixed "today" used by the concrete scenarios. -/
def d0 : Date := { year := 2024, month := 6, day := 1 }

/-- An earlier completion date, distinct from `d0`. -/
def dJan : Date := { year := 2024, month := 1, day := 1 }

/-- The spec's example due date 2024-03-15 (a Friday). -/
def dMar15 : Date := { year := 2024, month := 3, day := 15 }

/-- A recurring template row (id 1). -/
def exTemplate : Task :=
  { defaultTask with
    id := 1, user := 1, title := "Water plants",
    is_recurring := true, recurrence_type := some "daily" }

/-- A pending instance (id 2) of the template. -/
def exInstance : Task :=
  { defaultTask with
    id := 2, user := 1, title := "Water plants",
    parent_task := some 1 }

/-- Store holding the template and its single pending instance. -/
def exState : State := { tasks := [exTemplate, exInstance], nextId := 3 }

/-- A standalone Complete task whose `completed_date` is not today. -/
def c4Task : Task :=
  { defaultTask with
    id := 1, user := 1, title := "Old chore", status := 1,
    completed_date := some dJan }

/-- Store for the double-toggle scenario. -/
def c4State : State := { tasks := [c4Task], nextId := 2 }

/-- A standalone non-recurring task with a due date (spec example input). -/
def soloTask : Task :=
  { defaultTask with
    id := 1, user := 1, title := "Pay rent",
    due_date := some dMar15 }

/-- Store holding only the standalone task. -/
def soloState : State := { tasks := [soloTask], nextId := 2 }

/-- Form payload enabling weekly recurrence with due date 2024-03-15. -/
def fdWeekly : FormData :=
  { folder := none, title := "Pay rent", priority := 1,
    due_date := some dMar15, due_time := none, status := 0,
    recurrence := "weekly" }

/-- Form payload clearing recurrence. -/
def fdClear : FormData :=
  { folder := none, title := "Water plants", priority := 1,
    due_date := none, due_time := none, status := 0, recurrence := "" }

/-- A task owned by user 2 (used against requester user 1). -/
def otherUsersTask : Task :=
  { defaultTask with id := 1, user := 2, title := "Their task" }

/-- Store holding only the other user's task. -/
def otherUsersState : State := { tasks := [otherUsersTask], nextId := 2 }

instance instDecAtMostOnePending (s : State) : Decidable (atMostOnePending s) :=
  inferInstanceAs (Decidable (∀ t ∈ s.tasks, t.parent_task = none →
    t.is_recurring = true → pendingCount s t.id ≤ 1))

instance instDecWF (s : State) : Decidable (WF s) := by
  unfold WF
  infer_instance

/- ================= helper lemmas ================= -/

theorem findTask_mem {s : State} {id : Nat} {t : Task}
    (h : findTask s id = some t) : t ∈ s.tasks :=
  List.mem_of_find?_eq_some h

theorem findTask_id {s : State} {id : Nat} {t : Task}
    (h : findTask s id = some t) : t.id = id := by
  have := List.find?_some h
  simpa using this

theorem length_filter_map_le {α : Type} (f : α → α) (q : α → Bool) (l : List α)
    (h : ∀ x ∈ l, q (f x) = true → q x = true) :
    ((l.map f).filter q).length ≤ (l.filter q).length := by
  rw [← List.countP_eq_length_filter, ← List.countP_eq_length_filter,
    List.countP_map]
  exact List.countP_mono_left h

theorem length_filter_map_eq {α : Type} (f : α → α) (q : α → Bool) (l : List α)
    (h : ∀ x ∈ l, q (f x) = q x) :
    ((l.map f).filter q).length = (l.filter q).length := by
  rw [List.filter_map, List.length_map]
  rw [List.filter_congr (fun x hx => ?_)]
  exact h x hx

theorem findTask_saveTask (s : State) (t : Task) (id : Nat) :
    findTask (saveTask s t) id
      = (findTask s id).map (fun u => if u.id == t.id then t else u) := by
  unfold findTask saveTask
  simp only [List.find?_map]
  have hp : ((fun v : Task => v.id == id) ∘ fun u => if u.id == t.id then t else u)
      = fun u : Task => u.id == id := by
    funext u
    by_cases h : (u.id == t.id) = true
    · have hu : u.id = t.id := by simpa using h
      simp [Function.comp, h, hu]
    · simp [Function.comp, h]
  rw [hp]

theorem findTask_saveTask_same {s : State} {t t0 : Task} {id : Nat}
    (h : findTask s id = some t0) (hid : t0.id = t.id) :
    findTask (saveTask s t) id = some t := by
  rw [findTask_saveTask, h]
  simp [hid]

theorem findTask_saveTask_other {s : State} {t t0 : Task} {id : Nat}
    (h : findTask s id = some t0) (hid : ¬ t0.id = t.id) :
    findTask (saveTask s t) id = some t0 := by
  rw [findTask_saveTask, h]
  simp [hid]

theorem findTask_createTask {s : State} {id : Nat} {t0 : Task} (t : Task)
    (h : findTask s id = some t0) :
    findTask (createTask s t) id = some t0 := by
  unfold findTask at h
  unfold findTask createTask
  simp [List.find?_append, h]

theorem find?_filter_of_imp {α : Type} (p q : α → Bool) (l : List α)
    (h : ∀ a, p a = true → q a = true) :
    (l.filter q).find? p = l.find? p := by
  induction l with
  | nil => rfl
  | cons x l ih =>
    by_cases hq : q x = true
    · rw [List.filter_cons_of_pos hq]
      by_cases hp : p x = true
      · simp [List.find?_cons_of_pos, hp]
      · simp [List.find?_cons_of_neg, hp, ih]
    · rw [List.filter_cons_of_neg (by simpa using hq)]
      have hp : ¬ p x = true := fun hp => hq (h x hp)
      simp [List.find?_cons_of_neg, hp, ih]

theorem pickLatest_go_mem (l : List Task) (acc : Option Task) (a : Task)
    (h : (l.foldl (fun acc u =>
        match acc with
        | none => some u
        | some b => if ddKey b.due_date < ddKey u.due_date then some u else acc)
      acc) = some a) :
    acc = some a ∨ a ∈ l := by
  induction l generalizing acc with
  | nil => exact Or.inl h
  | cons x l ih =>
    simp only [List.foldl_cons] at h
    rcases ih _ h with h' | h'
    · cases acc with
      | none =>
        simp only at h'
        exact Or.inr (by simp [← Option.some.inj h'])
      | some b =>
        by_cases hd : ddKey b.due_date < ddKey x.due_date
        · simp only [hd, if_true] at h'
          exact Or.inr (by simp [← Option.some.inj h'])
        · simp only [hd, if_false] at h'
          exact Or.inl h'
    · exact Or.inr (List.mem_cons_of_mem _ h')

theorem latestPendingInstance_mem {s : State} {pid : Nat} {li : Task}
    (h : latestPendingInstance s pid = some li) :
    li ∈ s.tasks ∧ li.parent_task = some pid ∧ li.status = 0 := by
  unfold latestPendingInstance pickLatest at h
  rcases pickLatest_go_mem _ none li h with h' | h'
  · exact absurd h' (by simp)
  · have hm := List.mem_filter.mp h'
    have hb := hm.2
    simp only [Bool.and_eq_true, beq_iff_eq] at hb
    exact ⟨hm.1, hb.1, hb.2⟩

theorem latestPendingInstance_ne_self {s : State} {t2 li : Task}
    (h : latestPendingInstance (saveTask s t2) t2.id = some li)
    (hp : t2.parent_task = none) :
    ¬ li.id = t2.id := by
  obtain ⟨hm, hpar, _⟩ := latestPendingInstance_mem h
  unfold saveTask at hm
  simp only [List.mem_map] at hm
  obtain ⟨u, _, hfu⟩ := hm
  intro hid
  by_cases hc : (u.id == t2.id) = true
  · rw [if_pos hc] at hfu
    rw [← hfu] at hpar
    rw [hp] at hpar
    exact Option.noConfusion hpar
  · rw [if_neg hc] at hfu
    rw [← hfu] at hid
    exact hc (by simpa using hid)

theorem toggleStatus_id (today : Date) (t : Task) :
    (toggleStatus today t).id = t.id := by
  unfold toggleStatus
  split <;> rfl

theorem toggleStatus_parent (today : Date) (t : Task) :
    (toggleStatus today t).parent_task = t.parent_task := by
  unfold toggleStatus
  split <;> rfl

theorem applyEditPlain_eq_direct {today : Date} {s : State} {user id : Nat}
    {fd : FormData} {t0 : Task}
    (hfind : findTask s id = some t0) (hpar : t0.parent_task = none) :
    applyEditPlain today s user id fd
      = some (editDirectBranch today s fd (formSave user fd t0) t0.is_recurring) := by
  unfold applyEditPlain
  rw [hfind]
  dsimp only
  rw [hpar]

theorem applyEditPlain_eq_instance {today : Date} {s : State} {user id pid : Nat}
    {fd : FormData} {t0 : Task}
    (hfind : findTask s id = some t0) (hpar : t0.parent_task = some pid) :
    applyEditPlain today s user id fd
      = some (editInstanceBranch s fd (formSave user fd t0) pid) := by
  unfold applyEditPlain
  rw [hfind]
  dsimp only
  rw [hpar]

theorem formSave_id (user : Nat) (fd : FormData) (t : Task) :
    (formSave user fd t).id = t.id := rfl

/- ================= claim theorems ================= -/

/-- C8: for every user and task input, `send_task_reminder_email` and
`send_past_due_digest_email` return a structured `{success, error}` outcome:
an error string is present exactly when `success` is false, the missing-address
case reports `success = false` with an error, and a raising mail transport is
caught and reported rather than propagated (the functions are total over every
transport outcome). -/
theorem c8_email_structured_outcomes
    (send_mail : Transport) (server_email site_name : String)
    (user : EmailUser) (task : Task) (tasks : List Task) (reminder_type : String) :
    ((send_task_reminder_email send_mail server_email site_name user task
        reminder_type).error.isSome
      = !(send_task_reminder_email send_mail server_email site_name user task
        reminder_type).success)
  ∧ ((send_past_due_digest_email send_mail server_email site_name user
        tasks).error.isSome
      = !(send_past_due_digest_email send_mail server_email site_name user
        tasks).success)
  ∧ (send_task_reminder_email send_mail server_email site_name
        { notification_email := "", email := "" } task reminder_type
      = { success := false, error := some "User has no email address" })
  ∧ (send_past_due_digest_email send_mail server_email site_name
        { notification_email := "", email := "" } tasks
      = { success := false, error := some "User has no email address" }) := by
  refine ⟨?_, ?_, ?_, ?_⟩ <;>
    simp only [send_task_reminder_email, send_past_due_digest_email] <;>
    (repeat' split) <;> first | rfl | simp_all


/-- C10: `bulk_status_htmx` only ever changes the `status` and
`completed_date` fields of the rows matching its queryset (scoped,
non-recurring, non-archived): the table keeps its length (no task row is
created), the autoincrement counter is untouched, every row keeps its id,
user, folder, title, priority, due date/time, archived and recurrence fields,
`last_generated` and `parent_task` — in particular no template's
`last_generated` is ever updated, even when a Pending instance of a recurring
template is marked Complete by the bulk update — and a row outside the
matching queryset (archived, recurring, or out of scope) additionally keeps
its `status` and `completed_date`, so it is left entirely unchanged. -/
theorem c10_bulk_status_frame (today : Date) (s : State) (requester : Nat)
    (scope : BulkScope) (new_status : Nat) :
    (bulk_status_htmx today s requester scope new_status).tasks.length
        = s.tasks.length
  ∧ (bulk_status_htmx today s requester scope new_status).nextId = s.nextId
  ∧ List.Forall₂ (fun a b =>
        (b.id = a.id ∧ b.user = a.user ∧ b.folder = a.folder ∧ b.title = a.title
        ∧ b.priority = a.priority ∧ b.due_date = a.due_date
        ∧ b.due_time = a.due_time ∧ b.archived = a.archived
        ∧ b.is_recurring = a.is_recurring
        ∧ b.recurrence_type = a.recurrence_type
        ∧ b.recurrence_day = a.recurrence_day
        ∧ b.recurrence_month = a.recurrence_month
        ∧ b.last_generated = a.last_generated
        ∧ b.parent_task = a.parent_task)
        ∧ (bulkMatches requester scope a = false → b = a))
      s.tasks (bulk_status_htmx today s requester scope new_status).tasks := by
  refine ⟨by simp [bulk_status_htmx], rfl, ?_⟩
  unfold bulk_status_htmx
  simp only
  rw [List.forall₂_map_right_iff]
  rw [List.forall₂_same]
  intro a _
  repeat' split
  all_goals simp_all

theorem editTask2_id (fd : FormData) (task1 : Task) :
    (editTask2 fd task1).id = task1.id := by
  unfold editTask2
  split <;> rfl

theorem editTask2_parent (fd : FormData) (task1 : Task) :
    (editTask2 fd task1).parent_task = task1.parent_task := by
  unfold editTask2
  split <;> rfl

theorem editTask2_nonempty {fd : FormData} (task1 : Task)
    (hrecb : (fd.recurrence == "") = false) :
    editTask2 fd task1 = { task1 with
      is_recurring := true, recurrence_type := some fd.recurrence,
      recurrence_day := (applyDerivation fd.recurrence task1.due_date
        task1.recurrence_day task1.recurrence_month).1,
      recurrence_month := (applyDerivation fd.recurrence task1.due_date
        task1.recurrence_day task1.recurrence_month).2 } := by
  unfold editTask2
  rw [hrecb]
  rfl

theorem editDirectBranch_find {today : Date} {s : State} {fd : FormData}
    {task1 t0 : Task} {was : Bool}
    (hfind : findTask s task1.id = some t0) (hid : t0.id = task1.id)
    (hpar1 : task1.parent_task = none) :
    findTask (editDirectBranch today s fd task1 was) task1.id
        = some (editTask2 fd task1)
    ∨ findTask (editDirectBranch today s fd task1 was) task1.id
        = some { editTask2 fd task1 with last_generated := some today } := by
  have hid2 : t0.id = (editTask2 fd task1).id := by rw [editTask2_id]; exact hid
  have hf1 : findTask (saveTask s (editTask2 fd task1)) task1.id
      = some (editTask2 fd task1) := findTask_saveTask_same hfind hid2
  unfold editDirectBranch
  dsimp only
  by_cases hb1 : ((editTask2 fd task1).is_recurring && !was) = true
  · rw [if_pos hb1]
    right
    have hf2 : findTask (createTask (saveTask s (editTask2 fd task1))
        (firstInstanceFrom (editTask2 fd task1))) task1.id
        = some (editTask2 fd task1) := findTask_createTask _ hf1
    exact findTask_saveTask_same hf2 rfl
  · rw [if_neg hb1]
    by_cases hb2 : ((editTask2 fd task1).is_recurring && was) = true
    · rw [if_pos hb2]
      cases hli : latestPendingInstance (saveTask s (editTask2 fd task1))
          (editTask2 fd task1).id with
      | none =>
        left
        exact hf1
      | some li =>
        left
        have hline : ¬ li.id = (editTask2 fd task1).id :=
          latestPendingInstance_ne_self hli
            (by rw [editTask2_parent]; exact hpar1)
        exact findTask_saveTask_other hf1 (fun hcon => hline hcon.symm)
    · rw [if_neg hb2]
      left
      exact hf1

/-- C6: an edit of a task without a parent that sets a non-empty recurrence
stores the fields of the Derivation Rule: with a due date present, daily
clears `recurrence_day`, monthly stores the day of month, weekly stores the
weekday (`weekday` is Python's 0=Monday..6=Sunday), yearly stores day of month
and month; `recurrence_month` is untouched except for yearly; with no due
date, both fields keep their previous values. -/
theorem c6_derivation_rule (today : Date) (s : State) (user id : Nat)
    (fd : FormData) (t0 : Task)
    (hfind : findTask s id = some t0)
    (hpar : t0.parent_task = none)
    (hrec : ¬ fd.recurrence = "") :
    ∃ s' row, applyEditPlain today s user id fd = some s'
      ∧ findTask s' id = some row
      ∧ row.recurrence_type = some fd.recurrence
      ∧ (∀ d, fd.due_date = some d →
          (fd.recurrence = "daily" →
            row.recurrence_day = none
              ∧ row.recurrence_month = t0.recurrence_month)
        ∧ (fd.recurrence = "monthly" →
            row.recurrence_day = some d.day
              ∧ row.recurrence_month = t0.recurrence_month)
        ∧ (fd.recurrence = "weekly" →
            row.recurrence_day = some (weekday d)
              ∧ row.recurrence_month = t0.recurrence_month)
        ∧ (fd.recurrence = "yearly" →
            row.recurrence_day = some d.day
              ∧ row.recurrence_month = some d.month))
      ∧ (fd.due_date = none →
          row.recurrence_day = t0.recurrence_day
            ∧ row.recurrence_month = t0.recurrence_month) := by
  have hid : t0.id = id := findTask_id hfind
  have hrecb : (fd.recurrence == "") = false := by
    simp only [beq_eq_false_iff_ne, ne_eq]
    exact hrec
  have hfind1 : findTask s (formSave user fd t0).id = some t0 := by
    rw [formSave_id, hid]
    exact hfind
  have hpar1 : (formSave user fd t0).parent_task = none := hpar
  rw [applyEditPlain_eq_direct hfind hpar]
  rcases @editDirectBranch_find today s fd (formSave user fd t0) t0
      t0.is_recurring hfind1 (by rw [formSave_id]) hpar1 with hf | hf <;>
    rw [formSave_id, hid] at hf <;>
    rw [editTask2_nonempty _ hrecb] at hf <;>
    refine ⟨_, _, rfl, hf, rfl, ?_, ?_⟩ <;>
    try intro d hd
  · refine ⟨?_, ?_, ?_, ?_⟩ <;> intro h <;>
      simp [formSave, applyDerivation, hd, h]
  · intro hd
    simp [formSave, applyDerivation, hd]
  · refine ⟨?_, ?_, ?_, ?_⟩ <;> intro h <;>
      simp [formSave, applyDerivation, hd, h]
  · intro hd
    simp [formSave, applyDerivation, hd]

/-- Witness for C6 at a concrete input: the standalone task with due date
2024-03-15 edited to weekly recurrence; 2024-03-15 is a Friday (weekday 4 in
the 0=Monday convention, anchored by 2024-03-11 being a Monday). -/
theorem c6_derivation_rule_witness :
    findTask soloState 1 = some soloTask
    ∧ soloTask.parent_task = none
    ∧ ¬ fdWeekly.recurrence = ""
    ∧ weekday dMar15 = 4
    ∧ weekday { year := 2024, month := 3, day := 11 } = 0
    ∧ (∃ s' row, applyEditPlain d0 soloState 1 1 fdWeekly = some s'
        ∧ findTask s' 1 = some row
        ∧ row.recurrence_type = some fdWeekly.recurrence
        ∧ (∀ d, fdWeekly.due_date = some d →
            (fdWeekly.recurrence = "daily" →
              row.recurrence_day = none
                ∧ row.recurrence_month = soloTask.recurrence_month)
          ∧ (fdWeekly.recurrence = "monthly" →
              row.recurrence_day = some d.day
                ∧ row.recurrence_month = soloTask.recurrence_month)
          ∧ (fdWeekly.recurrence = "weekly" →
              row.recurrence_day = some (weekday d)
                ∧ row.recurrence_month = soloTask.recurrence_month)
          ∧ (fdWeekly.recurrence = "yearly" →
              row.recurrence_day = some d.day
                ∧ row.recurrence_month = some d.month))
        ∧ (fdWeekly.due_date = none →
            row.recurrence_day = soloTask.recurrence_day
              ∧ row.recurrence_month = soloTask.recurrence_month)) :=
  ⟨by decide, by decide, by decide, by decide, by decide,
    c6_derivation_rule d0 soloState 1 1 fdWeekly soloTask
      (by decide) (by decide) (by decide)⟩

theorem length_saveTask (s : State) (t : Task) :
    (saveTask s t).tasks.length = s.tasks.length := by
  simp [saveTask]

theorem length_createTask (s : State) (t : Task) :
    (createTask s t).tasks.length = s.tasks.length + 1 := by
  simp [createTask]

theorem getLast?_saveTask_createTask (s : State) (t new : Task)
    (hne : (s.nextId == t.id) = false) :
    (saveTask (createTask s new) t).tasks.getLast?
      = some { new with id := s.nextId } := by
  unfold saveTask createTask
  dsimp only
  rw [List.map_append]
  simp only [List.map_cons, List.map_nil]
  rw [List.getLast?_concat]
  have h : (({ new with id := s.nextId } : Task).id == t.id) = false := hne
  rw [h]
  rfl

/-- C5: editing a task without a parent from non-recurring to recurring
creates exactly one instance copying the edited task's user, folder, title,
priority, due_date and due_time, with status Pending and `parent_task` the
edited task, and stamps the edited task's `last_generated` with today; the new
instance's due date is the edited task's due date, not today. -/
theorem c5_enable_recurrence_creates_instance (today : Date) (s : State)
    (user id : Nat) (fd : FormData) (t0 : Task)
    (hfind : findTask s id = some t0)
    (hpar : t0.parent_task = none)
    (hwas : t0.is_recurring = false)
    (hrec : ¬ fd.recurrence = "")
    (hb : ∀ u ∈ s.tasks, u.id < s.nextId) :
    ∃ s' row, applyEditPlain today s user id fd = some s'
      ∧ s'.tasks.length = s.tasks.length + 1
      ∧ s'.tasks.getLast? = some
          { defaultTask with
            id := s.nextId, user := user, folder := fd.folder,
            title := capitalize fd.title, priority := fd.priority, status := 0,
            due_date := fd.due_date, due_time := fd.due_time,
            parent_task := some id }
      ∧ findTask s' id = some row
      ∧ row.last_generated = some today
      ∧ row.due_date = fd.due_date
      ∧ row.is_recurring = true := by
  have hid : t0.id = id := findTask_id hfind
  have hrecb : (fd.recurrence == "") = false := by
    simp only [beq_eq_false_iff_ne, ne_eq]
    exact hrec
  have hid2 : t0.id = (editTask2 fd (formSave user fd t0)).id := by
    rw [editTask2_id, formSave_id]
  have hfind1 : findTask s id = some t0 := hfind
  have hnei : (s.nextId == (editTask2 fd (formSave user fd t0)).id) = false := by
    rw [editTask2_id, formSave_id, hid]
    have := hb t0 (findTask_mem hfind)
    rw [hid] at this
    simp only [beq_eq_false_iff_ne, ne_eq]
    omega
  rw [applyEditPlain_eq_direct hfind hpar, hwas]
  unfold editDirectBranch
  dsimp only
  have hcond : ((editTask2 fd (formSave user fd t0)).is_recurring && !false) = true := by
    rw [editTask2_nonempty _ hrecb]
    rfl
  rw [if_pos hcond]
  have hfa : findTask (saveTask s (editTask2 fd (formSave user fd t0))) id
      = some (editTask2 fd (formSave user fd t0)) :=
    findTask_saveTask_same hfind hid2
  have hfb : findTask (createTask (saveTask s (editTask2 fd (formSave user fd t0)))
      (firstInstanceFrom (editTask2 fd (formSave user fd t0)))) id
      = some (editTask2 fd (formSave user fd t0)) :=
    findTask_createTask _ hfa
  refine ⟨_, _, rfl, ?_, ?_, findTask_saveTask_same hfb rfl, ?_, ?_, ?_⟩
  · rw [length_saveTask, length_createTask, length_saveTask]
  · rw [getLast?_saveTask_createTask (saveTask s (editTask2 fd (formSave user fd t0)))
        ({ editTask2 fd (formSave user fd t0) with last_generated := some today })
        (firstInstanceFrom (editTask2 fd (formSave user fd t0))) hnei]
    rw [editTask2_nonempty _ hrecb, ← hid]
    rfl
  · rfl
  · rw [editTask2_nonempty _ hrecb]
    rfl
  · rw [editTask2_nonempty _ hrecb]

/-- Witness for C5: enabling weekly recurrence on the standalone task dated
2024-03-15 while today is 2024-06-01; the created instance keeps the 03-15 due
date (which differs from today). -/
theorem c5_enable_recurrence_creates_instance_witness :
    findTask soloState 1 = some soloTask
    ∧ soloTask.parent_task = none
    ∧ soloTask.is_recurring = false
    ∧ ¬ fdWeekly.recurrence = ""
    ∧ (∀ u ∈ soloState.tasks, u.id < soloState.nextId)
    ∧ ¬ fdWeekly.due_date = some d0
    ∧ (∃ s' row, applyEditPlain d0 soloState 1 1 fdWeekly = some s'
        ∧ s'.tasks.length = soloState.tasks.length + 1
        ∧ s'.tasks.getLast? = some
            { defaultTask with
              id := soloState.nextId, user := 1, folder := fdWeekly.folder,
              title := capitalize fdWeekly.title, priority := fdWeekly.priority,
              status := 0, due_date := fdWeekly.due_date,
              due_time := fdWeekly.due_time, parent_task := some 1 }
        ∧ findTask s' 1 = some row
        ∧ row.last_generated = some d0
        ∧ row.due_date = fdWeekly.due_date
        ∧ row.is_recurring = true) :=
  ⟨by decide, by decide, by decide, by decide, by decide, by decide,
    c5_enable_recurrence_creates_instance d0 soloState 1 1 fdWeekly soloTask
      (by decide) (by decide) (by decide) (by decide) (by decide)⟩

/-- C7: editing an instance (a task with a parent) with the recurrence field
cleared deletes the template row and saves the instance again detached
(`parent_task = none`), leaving it a standalone task carrying the edited
fields. -/
theorem c7_clear_recurrence_detaches (today : Date) (s : State)
    (user id pid : Nat) (fd : FormData) (t0 p0 : Task)
    (hfind : findTask s id = some t0)
    (hpar : t0.parent_task = some pid)
    (hfp : findTask s pid = some p0)
    (hne : ¬ pid = id)
    (hrec : fd.recurrence = "") :
    ∃ s', applyEditPlain today s user id fd = some s'
      ∧ findTask s' pid = none
      ∧ findTask s' id = some { formSave user fd t0 with parent_task := none } := by
  have hid : t0.id = id := findTask_id hfind
  have hrecb : (fd.recurrence == "") = true := by
    simp [hrec]
  have hid1 : t0.id = (formSave user fd t0).id := by rw [formSave_id]
  rw [applyEditPlain_eq_instance hfind hpar]
  unfold editInstanceBranch
  dsimp only
  rw [hfp]
  dsimp only
  rw [if_pos hrecb]
  have hA : findTask { saveTask s (formSave user fd t0) with
      tasks := (saveTask s (formSave user fd t0)).tasks.filter
        (fun u => !(u.id == pid)) } pid = none := by
    unfold findTask
    rw [List.find?_eq_none]
    intro x hx
    have hx2 := (List.mem_filter.mp hx).2
    simp only [Bool.not_eq_eq_eq_not, Bool.not_true, beq_eq_false_iff_ne, ne_eq] at hx2
    simp only [beq_iff_eq]
    exact hx2
  have hB : findTask { saveTask s (formSave user fd t0) with
      tasks := (saveTask s (formSave user fd t0)).tasks.filter
        (fun u => !(u.id == pid)) } id = some (formSave user fd t0) := by
    unfold findTask
    dsimp only
    rw [find?_filter_of_imp _ _ _ (fun a ha => ?_)]
    · exact findTask_saveTask_same hfind hid1
    · have : a.id = id := by simpa using ha
      simp [this]
      intro hcon
      exact hne hcon.symm
  refine ⟨_, rfl, ?_, ?_⟩
  · rw [findTask_saveTask, hA]
    rfl
  · exact findTask_saveTask_same hB rfl

/-- Witness for C7: clearing recurrence on the instance (id 2) of the template
(id 1) deletes the template and detaches the instance. -/
theorem c7_clear_recurrence_detaches_witness :
    findTask exState 2 = some exInstance
    ∧ exInstance.parent_task = some 1
    ∧ findTask exState 1 = some exTemplate
    ∧ ¬ (1 : Nat) = 2
    ∧ fdClear.recurrence = ""
    ∧ ∃ s', applyEditPlain d0 exState 1 2 fdClear = some s'
        ∧ findTask s' 1 = none
        ∧ findTask s' 2
            = some { formSave 1 fdClear exInstance with parent_task := none } :=
  ⟨by decide, by decide, by decide, by decide, by decide,
    c7_clear_recurrence_detaches d0 exState 1 2 1 fdClear exInstance exTemplate
      (by decide) (by decide) (by decide) (by decide) (by decide)⟩

/-- C2: toggling a Pending instance of a recurring, non-archived template to
Complete, when no other pending non-archived instance exists, creates exactly
one new instance whose user, folder, title and priority come from the template
(not the completed instance), with `due_date = today`, the template's
`due_time`, status Pending and `parent_task` the template, and stamps the
template's `last_generated` with today. -/
theorem c2_completion_spawns (today : Date) (s : State) (iid pid : Nat)
    (inst tpl : Task)
    (hfind : findTask s iid = some inst)
    (hpend : inst.status = 0)
    (hpar : inst.parent_task = some pid)
    (hne : ¬ pid = iid)
    (hfp : findTask s pid = some tpl)
    (hrecur : tpl.is_recurring = true)
    (harch : tpl.archived = false)
    (honly : ∀ u ∈ s.tasks, isActivePendingOf pid u = true → u = inst)
    (hb : ∀ u ∈ s.tasks, u.id < s.nextId) :
    ∃ s', apply_completion_toggle today s iid = some s'
      ∧ s'.tasks.length = s.tasks.length + 1
      ∧ s'.tasks.getLast? = some
          { defaultTask with
            id := s.nextId, user := tpl.user, folder := tpl.folder,
            title := tpl.title, priority := tpl.priority, status := 0,
            due_date := some today, due_time := tpl.due_time,
            parent_task := some pid }
      ∧ findTask s' pid = some { tpl with last_generated := some today } := by
  have hiid : inst.id = iid := findTask_id hfind
  have hpidid : tpl.id = pid := findTask_id hfp
  have htgl : toggleStatus today inst
      = { inst with status := 1, completed_date := some today } := by
    unfold toggleStatus
    rw [hpend]
    rfl
  unfold apply_completion_toggle
  rw [hfind]
  dsimp only
  rw [htgl]
  dsimp only
  rw [if_pos (show ((1 : Nat) == 1) = true from rfl)]
  rw [hpar]
  dsimp only
  have hfp1 : findTask
      (saveTask s { inst with status := 1, completed_date := some today, parent_task := some pid }) pid
      = some tpl :=
    findTask_saveTask_other hfp
      (by
        intro hcon
        exact hne (by rw [← hpidid, hcon]; exact hiid))
  rw [hfp1]
  dsimp only
  rw [if_pos (by rw [hrecur, harch]; rfl)]
  have hnp : hasPendingInstance
      (saveTask s { inst with status := 1, completed_date := some today, parent_task := some pid }) pid
      = false := by
    unfold hasPendingInstance saveTask
    dsimp only
    rw [List.any_map, List.any_eq_false]
    intro x hx
    simp only [Function.comp]
    by_cases hc :
        (x.id == ({ inst with status := 1, completed_date := some today, parent_task := some pid } : Task).id)
          = true
    · rw [if_pos hc]
      simp [isActivePendingOf]
    · rw [if_neg (by simpa using hc)]
      intro hcon
      apply hc
      rw [honly x hx hcon]
      simp
  rw [hnp]
  simp only [Bool.false_eq_true, if_false]
  have hne2 : ((saveTask s { inst with status := 1, completed_date := some today, parent_task := some pid }).nextId
      == ({ tpl with last_generated := some today } : Task).id) = false := by
    have := hb tpl (findTask_mem hfp)
    show (s.nextId == tpl.id) = false
    simp only [beq_eq_false_iff_ne, ne_eq]
    omega
  refine ⟨_, rfl, ?_, ?_, ?_⟩
  · rw [length_saveTask, length_createTask, length_saveTask]
  · rw [getLast?_saveTask_createTask
        (saveTask s { inst with status := 1, completed_date := some today, parent_task := some pid })
        ({ tpl with last_generated := some today })
        (spawnInstance today tpl) hne2]
    rw [← hpidid]
    rfl
  · exact findTask_saveTask_same (findTask_createTask _ hfp1) rfl

/-- Witness for C2: completing the pending instance (id 2) of the recurring,
non-archived template (id 1) with no other pending instance. -/
theorem c2_completion_spawns_witness :
    findTask exState 2 = some exInstance
    ∧ exInstance.status = 0
    ∧ exInstance.parent_task = some 1
    ∧ ¬ (1 : Nat) = 2
    ∧ findTask exState 1 = some exTemplate
    ∧ exTemplate.is_recurring = true
    ∧ exTemplate.archived = false
    ∧ (∀ u ∈ exState.tasks, isActivePendingOf 1 u = true → u = exInstance)
    ∧ (∀ u ∈ exState.tasks, u.id < exState.nextId)
    ∧ (∃ s', apply_completion_toggle d0 exState 2 = some s'
        ∧ s'.tasks.length = exState.tasks.length + 1
        ∧ s'.tasks.getLast? = some
            { defaultTask with
              id := exState.nextId, user := exTemplate.user,
              folder := exTemplate.folder, title := exTemplate.title,
              priority := exTemplate.priority, status := 0,
              due_date := some d0, due_time := exTemplate.due_time,
              parent_task := some 1 }
        ∧ findTask s' 1 = some { exTemplate with last_generated := some d0 }) :=
  ⟨by decide, by decide, by decide, by decide, by decide, by decide, by decide,
    by decide, by decide,
    c2_completion_spawns d0 exState 2 1 exInstance exTemplate
      (by decide) (by decide) (by decide) (by decide) (by decide) (by decide)
      (by decide) (by decide) (by decide)⟩

theorem act_tracks (today : Date) (s : State) (id : Nat) (t : Task)
    (hfind : findTask s id = some t) :
    ∃ s' t', apply_completion_toggle today s id = some s'
      ∧ findTask s' id = some t'
      ∧ t'.status = (toggleStatus today t).status
      ∧ t'.completed_date = (toggleStatus today t).completed_date := by
  have hid : t.id = id := findTask_id hfind
  have hf1 : findTask (saveTask s (toggleStatus today t)) id
      = some (toggleStatus today t) :=
    findTask_saveTask_same hfind (by rw [toggleStatus_id])
  unfold apply_completion_toggle
  rw [hfind]
  dsimp only
  by_cases h1 : ((toggleStatus today t).status == 1) = true
  · rw [if_pos h1]
    cases hp : (toggleStatus today t).parent_task with
    | none => exact ⟨_, _, rfl, hf1, rfl, rfl⟩
    | some pid =>
      dsimp only
      cases hfp : findTask (saveTask s (toggleStatus today t)) pid with
      | none => exact ⟨_, _, rfl, hf1, rfl, rfl⟩
      | some parent =>
        dsimp only
        by_cases h2 : (parent.is_recurring && !parent.archived) = true
        · rw [if_pos h2]
          by_cases h3 : hasPendingInstance (saveTask s (toggleStatus today t)) pid
              = true
          · rw [if_pos h3]
            exact ⟨_, _, rfl, hf1, rfl, rfl⟩
          · rw [if_neg h3]
            have hf2 := findTask_createTask (spawnInstance today parent) hf1
            by_cases h4 : ((toggleStatus today t).id
                == ({ parent with last_generated := some today } : Task).id) = true
            · have hpid : parent.id = pid := findTask_id hfp
              have hpidid : pid = id := by
                have h4' : (toggleStatus today t).id = parent.id := by simpa using h4
                rw [toggleStatus_id] at h4'
                omega
              rw [hpidid, hf1] at hfp
              have hpe : parent = toggleStatus today t := (Option.some.inj hfp).symm
              refine ⟨_, _, rfl,
                findTask_saveTask_same hf2 (by simpa using h4), ?_, ?_⟩
              · rw [hpe]
              · rw [hpe]
            · exact ⟨_, _, rfl,
                findTask_saveTask_other hf2 (by simpa using h4), rfl, rfl⟩
        · rw [if_neg h2]
          exact ⟨_, _, rfl, hf1, rfl, rfl⟩
  · rw [if_neg h1]
    exact ⟨_, _, rfl, hf1, rfl, rfl⟩

theorem toggleStatus_of_pending (today : Date) (u : Task) (hu : u.status = 0) :
    (toggleStatus today u).status = 1
      ∧ (toggleStatus today u).completed_date = some today := by
  unfold toggleStatus
  rw [hu]
  exact ⟨rfl, rfl⟩

theorem toggleStatus_of_complete (today : Date) (u : Task) (hu : u.status = 1) :
    (toggleStatus today u).status = 0
      ∧ (toggleStatus today u).completed_date = none := by
  unfold toggleStatus
  rw [hu]
  exact ⟨rfl, rfl⟩

/-- C4 (amended): a double completion toggle always restores the original
status (for a well-formed status 0 or 1); `completed_date` however ends as
`none` when the task started Pending and as today's date when it started
Complete — so the original `completed_date` is restored only when it was
`none` (Pending case) or already equal to today (Complete case). -/
theorem c4_double_toggle (today : Date) (s : State) (id : Nat) (t : Task)
    (hfind : findTask s id = some t)
    (hst : t.status = 0 ∨ t.status = 1) :
    ∃ s1 s2 t2, apply_completion_toggle today s id = some s1
      ∧ apply_completion_toggle today s1 id = some s2
      ∧ findTask s2 id = some t2
      ∧ t2.status = t.status
      ∧ (t.status = 0 → t2.completed_date = none)
      ∧ (t.status = 1 → t2.completed_date = some today) := by
  obtain ⟨s1, t1, h1, hf1, hs1, hc1⟩ := act_tracks today s id t hfind
  obtain ⟨s2, t2, h2, hf2, hs2, hc2⟩ := act_tracks today s1 id t1 hf1
  refine ⟨s1, s2, t2, h1, h2, hf2, ?_, ?_, ?_⟩
  · rcases hst with h | h
    · have ht1 : t1.status = 1 := by
        rw [hs1, (toggleStatus_of_pending today t h).1]
      rw [hs2, (toggleStatus_of_complete today t1 ht1).1, h]
    · have ht1 : t1.status = 0 := by
        rw [hs1, (toggleStatus_of_complete today t h).1]
      rw [hs2, (toggleStatus_of_pending today t1 ht1).1, h]
  · intro h
    have ht1 : t1.status = 1 := by
      rw [hs1, (toggleStatus_of_pending today t h).1]
    rw [hc2, (toggleStatus_of_complete today t1 ht1).2]
  · intro h
    have ht1 : t1.status = 0 := by
      rw [hs1, (toggleStatus_of_complete today t h).1]
    rw [hc2, (toggleStatus_of_pending today t1 ht1).2]

/-- C4 counterexample: the standalone task completed on 2024-01-01, toggled
twice on 2024-06-01, ends with `completed_date = 2024-06-01`, not its original
`completed_date` — the double toggle does not restore `completed_date`. -/
theorem c4_counterexample :
    (findTask (runCompletions d0 c4State [1, 1]) 1).map (fun t => t.completed_date)
        = some (some d0)
    ∧ c4Task.completed_date = some dJan
    ∧ ¬ (findTask (runCompletions d0 c4State [1, 1]) 1).map
          (fun t => t.completed_date)
        = some c4Task.completed_date := by
  decide

/-- Witness for C4 (amended) on the Pending standalone task. -/
theorem c4_double_toggle_witness :
    findTask soloState 1 = some soloTask
    ∧ (soloTask.status = 0 ∨ soloTask.status = 1)
    ∧ (∃ s1 s2 t2, apply_completion_toggle d0 soloState 1 = some s1
        ∧ apply_completion_toggle d0 s1 1 = some s2
        ∧ findTask s2 1 = some t2
        ∧ t2.status = soloTask.status
        ∧ (soloTask.status = 0 → t2.completed_date = none)
        ∧ (soloTask.status = 1 → t2.completed_date = some d0)) :=
  ⟨by decide, Or.inl (by decide),
    c4_double_toggle d0 soloState 1 soloTask (by decide) (Or.inl (by decide))⟩

/-- C9: `delete` and `delete_htmx` filter the lookup on the requesting user
and answer 404 (`none`) when the task belongs to someone else, while `status`,
`status_htmx` (`apply_completion_toggle`), `edit` (`applyEditPlain`) and
`task_form` (`applyEditForm`) look the task up by id alone and perform their
mutation regardless of the owner. -/
theorem c9_ownership_scoping (today : Date) (s : State)
    (requester user id : Nat) (t : Task) (fd : FormData)
    (hfind : findTask s id = some t)
    (hown : ¬ t.user = requester)
    (huniq : ∀ u ∈ s.tasks, u.id = id → u = t) :
    deleteView s requester id = none
    ∧ deleteHtmxView s requester id = none
    ∧ (∃ s', statusPlain today s id = some s'
        ∧ findTask s' id = some (toggleStatus today t))
    ∧ (apply_completion_toggle today s id).isSome = true
    ∧ (applyEditPlain today s user id fd).isSome = true
    ∧ (applyEditForm today s user id fd).isSome = true := by
  have hdel : s.tasks.find? (fun u => u.id == id && u.user == requester)
      = none := by
    rw [List.find?_eq_none]
    intro x hx hcon
    simp only [Bool.and_eq_true, beq_iff_eq] at hcon
    exact hown (by rw [← huniq x hx hcon.1]; exact hcon.2)
  refine ⟨?_, ?_, ?_, ?_, ?_, ?_⟩
  · unfold deleteView
    rw [hdel]
  · unfold deleteHtmxView
    rw [hdel]
  · unfold statusPlain
    rw [hfind]
    exact ⟨_, rfl, findTask_saveTask_same hfind (by rw [toggleStatus_id])⟩
  · obtain ⟨s', t', h, _⟩ := act_tracks today s id t hfind
    rw [h]
    rfl
  · cases hp : t.parent_task with
    | none =>
      rw [applyEditPlain_eq_direct hfind hp]
      rfl
    | some pid =>
      rw [applyEditPlain_eq_instance hfind hp]
      rfl
  · unfold applyEditForm
    rw [hfind]
    dsimp only
    cases hp : t.parent_task <;> rfl

/-- Witness for C9: the task (id 1) is owned by user 2; requester is user 1. -/
theorem c9_ownership_scoping_witness :
    findTask otherUsersState 1 = some otherUsersTask
    ∧ ¬ otherUsersTask.user = 1
    ∧ (∀ u ∈ otherUsersState.tasks, u.id = 1 → u = otherUsersTask)
    ∧ (deleteView otherUsersState 1 1 = none
        ∧ deleteHtmxView otherUsersState 1 1 = none
        ∧ (∃ s', statusPlain d0 otherUsersState 1 = some s'
            ∧ findTask s' 1 = some (toggleStatus d0 otherUsersTask))
        ∧ (apply_completion_toggle d0 otherUsersState 1).isSome = true
        ∧ (applyEditPlain d0 otherUsersState 1 1 fdClear).isSome = true
        ∧ (applyEditForm d0 otherUsersState 1 1 fdClear).isSome = true) :=
  ⟨by decide, by decide, by decide,
    c9_ownership_scoping d0 otherUsersState 1 1 1 otherUsersTask fdClear
      (by decide) (by decide) (by decide)⟩

/-- C3 counterexample: completing the pending instance (id 2) through the
plain `status` view and through `status_htmx` yields different persisted
states — `status` omits the instance-generation side effect, so the two entry
points do not apply the same state changes. -/
theorem c3_counterexample :
    ¬ statusPlain d0 exState 2 = apply_completion_toggle d0 exState 2 := by
  decide

/-- C3 (amended): the two edit entry points `edit` and `task_form` persist
identical changes whenever the submitted status equals the task's current
status (they differ exactly by `task_form`'s completed_date maintenance on a
status change), and `status` agrees with `status_htmx` exactly when the
toggled task is not an instance (no parent), since only `status_htmx` carries
the completion-spawn side effect. -/
theorem c3_amended :
    (∀ (today : Date) (s : State) (user id : Nat) (fd : FormData) (t : Task),
        findTask s id = some t → fd.status = t.status →
        applyEditPlain today s user id fd = applyEditForm today s user id fd)
  ∧ (∀ (today : Date) (s : State) (id : Nat) (t : Task),
        findTask s id = some t → t.parent_task = none →
        statusPlain today s id = apply_completion_toggle today s id) := by
  constructor
  · intro today s user id fd t hfind hst
    unfold applyEditPlain applyEditForm
    rw [hfind]
    dsimp only
    have hs : (formSave user fd t).status = t.status := by
      simp [formSave, hst]
    have heq : (if ((formSave user fd t).status == 1 && !(t.status == 1)) = true then
          { formSave user fd t with completed_date := some today }
        else if (!((formSave user fd t).status == 1) && t.status == 1) = true then
          { formSave user fd t with completed_date := none }
        else formSave user fd t) = formSave user fd t := by
      rw [hs]
      by_cases h : (t.status == 1) = true
      · rw [h]
        simp
      · have h' : (t.status == 1) = false := by simpa using h
        rw [h']
        simp
    rw [heq]
  · intro today s id t hfind hpar
    unfold statusPlain apply_completion_toggle
    rw [hfind]
    dsimp only
    by_cases h : ((toggleStatus today t).status == 1) = true
    · rw [if_pos h, toggleStatus_parent today t, hpar]
    · rw [if_neg h]

/-- Witness for C3 (amended) on the standalone task: the edit payload keeps
the status, so both edit entry points agree; the task has no parent, so both
status entry points agree. -/
theorem c3_amended_witness :
    findTask soloState 1 = some soloTask
    ∧ fdWeekly.status = soloTask.status
    ∧ soloTask.parent_task = none
    ∧ applyEditPlain d0 soloState 1 1 fdWeekly
        = applyEditForm d0 soloState 1 1 fdWeekly
    ∧ statusPlain d0 soloState 1 = apply_completion_toggle d0 soloState 1 :=
  ⟨by decide, by decide, by decide,
    c3_amended.1 d0 soloState 1 1 fdWeekly soloTask (by decide) (by decide),
    c3_amended.2 d0 soloState 1 soloTask (by decide) (by decide)⟩

/-- C1 counterexample: starting from a state satisfying the invariant
(template id 1 with one pending instance id 2), completing instance 2 spawns
instance 3 and then reverting instance 2 back to Pending leaves two pending
non-archived instances of template 1 — the invariant is not preserved by
arbitrary sequences of completion toggles. -/
theorem c1_counterexample :
    atMostOnePending exState
    ∧ ¬ atMostOnePending (runCompletions d0 exState [2, 2]) := by
  decide

theorem toggleStatus_is_recurring (today : Date) (t : Task) :
    (toggleStatus today t).is_recurring = t.is_recurring := by
  unfold toggleStatus
  split <;> rfl

theorem toggleStatus_status_of_not_complete (today : Date) (t : Task)
    (h : ¬ t.status = 1) : (toggleStatus today t).status = 1 := by
  unfold toggleStatus
  have hb : (t.status == 1) = false := by simpa using h
  rw [hb]
  rfl

theorem pendingCount_saveTask_complete_le (s : State) (t' : Task) (pid : Nat)
    (hst : t'.status = 1) :
    pendingCount (saveTask s t') pid ≤ pendingCount s pid := by
  unfold pendingCount saveTask
  dsimp only
  apply length_filter_map_le
  intro x _ hq
  by_cases hc : (x.id == t'.id) = true
  · rw [if_pos hc] at hq
    exfalso
    unfold isActivePendingOf at hq
    rw [hst] at hq
    simp at hq
  · rw [if_neg hc] at hq
    exact hq

theorem pendingCount_saveTask_eq_fields (s : State) (t' : Task) (pid : Nat)
    (h : ∀ u ∈ s.tasks, u.id = t'.id →
      isActivePendingOf pid u = isActivePendingOf pid t') :
    pendingCount (saveTask s t') pid = pendingCount s pid := by
  unfold pendingCount saveTask
  dsimp only
  apply length_filter_map_eq
  intro x hx
  by_cases hc : (x.id == t'.id) = true
  · rw [if_pos hc]
    exact (h x hx (by simpa using hc)).symm
  · rw [if_neg hc]

theorem pendingCount_createTask (s : State) (t : Task) (pid : Nat) :
    pendingCount (createTask s t) pid
      = pendingCount s pid
        + (if isActivePendingOf pid { t with id := s.nextId } = true
           then 1 else 0) := by
  unfold pendingCount createTask
  dsimp only
  rw [List.filter_append, List.length_append]
  congr 1
  by_cases h : isActivePendingOf pid ({ t with id := s.nextId }) = true
  · rw [if_pos h]
    simp [List.filter_cons, h]
  · rw [if_neg h]
    simp only [Bool.not_eq_true] at h
    simp [List.filter_cons, h]

theorem pendingCount_eq_zero_of_not_hasPending {s : State} {pid : Nat}
    (h : hasPendingInstance s pid = false) : pendingCount s pid = 0 := by
  unfold hasPendingInstance at h
  unfold pendingCount
  rw [List.any_eq_false] at h
  rw [List.length_eq_zero, List.filter_eq_nil_iff]
  exact h

theorem map_id_saveTask (s : State) (t : Task) :
    (saveTask s t).tasks.map (fun u => u.id) = s.tasks.map (fun u => u.id) := by
  unfold saveTask
  dsimp only
  rw [List.map_map]
  apply List.map_congr_left
  intro a _
  by_cases h : (a.id == t.id) = true
  · simp only [Function.comp, if_pos h]
    exact (by simpa using h : a.id = t.id).symm
  · simp only [Function.comp, if_neg h]

theorem WF_saveTask {s : State} (t : Task) (h : WF s) : WF (saveTask s t) := by
  obtain ⟨h1, h2⟩ := h
  constructor
  · rw [map_id_saveTask]
    exact h1
  · intro u hu
    unfold saveTask at hu
    simp only [List.mem_map] at hu
    obtain ⟨v, hv, hfv⟩ := hu
    by_cases hc : (v.id == t.id) = true
    · rw [if_pos hc] at hfv
      rw [← hfv]
      have hvid : v.id = t.id := by simpa using hc
      show t.id < s.nextId
      rw [← hvid]
      exact h2 v hv
    · rw [if_neg hc] at hfv
      rw [← hfv]
      exact h2 v hv

theorem WF_createTask {s : State} (t : Task) (h : WF s) : WF (createTask s t) := by
  obtain ⟨h1, h2⟩ := h
  constructor
  · unfold createTask
    dsimp only
    rw [List.map_append, List.nodup_append]
    refine ⟨h1, List.nodup_singleton _, ?_⟩
    intro a ha hb
    simp only [List.map_cons, List.map_nil, List.mem_singleton] at hb
    simp only [List.mem_map] at ha
    obtain ⟨v, hv, hfv⟩ := ha
    have hlt := h2 v hv
    rw [hfv] at hlt
    rw [hb] at hlt
    omega
  · intro u hu
    unfold createTask at hu
    dsimp only at hu
    rw [List.mem_append] at hu
    rcases hu with hu | hu
    · have := h2 u hu
      show u.id < s.nextId + 1
      omega
    · simp only [List.mem_singleton] at hu
      rw [hu]
      show s.nextId < s.nextId + 1
      omega

theorem act_shape (today : Date) (s : State) (id : Nat) (s' : State)
    (hrun : apply_completion_toggle today s id = some s') :
    (∃ t, s' = saveTask s (toggleStatus today t))
    ∨ (∃ t parent, s' = saveTask
        (createTask (saveTask s (toggleStatus today t)) (spawnInstance today parent))
        { parent with last_generated := some today }) := by
  unfold apply_completion_toggle at hrun
  cases hfind : findTask s id with
  | none =>
    rw [hfind] at hrun
    cases hrun
  | some t =>
    rw [hfind] at hrun
    dsimp only at hrun
    by_cases h1 : ((toggleStatus today t).status == 1) = true
    · rw [if_pos h1] at hrun
      cases hp : (toggleStatus today t).parent_task with
      | none =>
        rw [hp] at hrun
        exact Or.inl ⟨t, (Option.some.inj hrun).symm⟩
      | some pid =>
        rw [hp] at hrun
        dsimp only at hrun
        cases hfp : findTask (saveTask s (toggleStatus today t)) pid with
        | none =>
          rw [hfp] at hrun
          exact Or.inl ⟨t, (Option.some.inj hrun).symm⟩
        | some parent =>
          rw [hfp] at hrun
          dsimp only at hrun
          by_cases h2 : (parent.is_recurring && !parent.archived) = true
          · rw [if_pos h2] at hrun
            by_cases h3 : hasPendingInstance (saveTask s (toggleStatus today t)) pid
                = true
            · rw [if_pos h3] at hrun
              exact Or.inl ⟨t, (Option.some.inj hrun).symm⟩
            · rw [if_neg h3] at hrun
              exact Or.inr ⟨t, parent, (Option.some.inj hrun).symm⟩
          · rw [if_neg h2] at hrun
            exact Or.inl ⟨t, (Option.some.inj hrun).symm⟩
    · rw [if_neg h1] at hrun
      exact Or.inl ⟨t, (Option.some.inj hrun).symm⟩

theorem act_preserves_WF {today : Date} {s : State} {id : Nat} {s' : State}
    (hrun : apply_completion_toggle today s id = some s') (h : WF s) : WF s' := by
  rcases act_shape today s id s' hrun with ⟨t, rfl⟩ | ⟨t, parent, rfl⟩
  · exact WF_saveTask _ h
  · exact WF_saveTask _ (WF_createTask _ (WF_saveTask _ h))

theorem inv_saveTask_toggle (today : Date) (s : State) (t : Task)
    (hpend : ¬ t.status = 1)
    (hinv : atMostOnePending s)
    (hmem : t ∈ s.tasks) :
    atMostOnePending (saveTask s (toggleStatus today t)) := by
  intro v hv hvp hvr
  have hst1 := toggleStatus_status_of_not_complete today t hpend
  refine le_trans
    (pendingCount_saveTask_complete_le s (toggleStatus today t) v.id hst1) ?_
  unfold saveTask at hv
  simp only [List.mem_map] at hv
  obtain ⟨u, hu, hfu⟩ := hv
  by_cases hc : (u.id == (toggleStatus today t).id) = true
  · rw [if_pos hc] at hfu
    subst hfu
    have hp' : t.parent_task = none := by
      rw [← toggleStatus_parent today t]
      exact hvp
    have hr' : t.is_recurring = true := by
      rw [← toggleStatus_is_recurring today t]
      exact hvr
    rw [toggleStatus_id]
    exact hinv t hmem hp' hr'
  · rw [if_neg hc] at hfu
    subst hfu
    exact hinv u hu hvp hvr

theorem inv_spawn_case (today : Date) (s1 : State) (pid : Nat) (parent : Task)
    (hwf1 : WF s1)
    (hinv1 : atMostOnePending s1)
    (hfp : findTask s1 pid = some parent)
    (hnp : hasPendingInstance s1 pid = false) :
    atMostOnePending (saveTask
      (createTask s1 (spawnInstance today parent))
      { parent with last_generated := some today }) := by
  have hpid : parent.id = pid := findTask_id hfp
  have hpm : parent ∈ s1.tasks := findTask_mem hfp
  have hzero : pendingCount s1 pid = 0 := pendingCount_eq_zero_of_not_hasPending hnp
  have hwf2 : WF (createTask s1 (spawnInstance today parent)) :=
    WF_createTask _ hwf1
  have hpm2 : parent ∈ (createTask s1 (spawnInstance today parent)).tasks := by
    unfold createTask
    exact List.mem_append_left _ hpm
  have hnew : ∀ q, (isActivePendingOf q
      { spawnInstance today parent with id := s1.nextId } = true) ↔ parent.id = q := by
    intro q
    unfold isActivePendingOf spawnInstance
    simp [defaultTask]
  have hs2cnt : ∀ q, pendingCount (createTask s1 (spawnInstance today parent)) q
      = pendingCount s1 q + (if parent.id = q then 1 else 0) := by
    intro q
    rw [pendingCount_createTask]
    congr 1
    by_cases h : parent.id = q
    · rw [if_pos ((hnew q).mpr h), if_pos h]
    · rw [if_neg (fun hcon => h ((hnew q).mp hcon)), if_neg h]
  have hstamp : ∀ q, pendingCount (saveTask
      (createTask s1 (spawnInstance today parent))
      { parent with last_generated := some today }) q
      = pendingCount (createTask s1 (spawnInstance today parent)) q := by
    intro q
    apply pendingCount_saveTask_eq_fields
    intro u hu hid'
    have hup : u = parent :=
      List.inj_on_of_nodup_map hwf2.1 hu hpm2 hid'
    rw [hup]
    rfl
  intro v hv hvp hvr
  rw [hstamp]
  unfold saveTask at hv
  simp only [List.mem_map] at hv
  obtain ⟨u, hu, hfu⟩ := hv
  have hu2 := hu
  unfold createTask at hu2
  dsimp only at hu2
  rw [List.mem_append] at hu2
  by_cases hc : (u.id == ({ parent with last_generated := some today } : Task).id)
      = true
  · rw [if_pos hc] at hfu
    subst hfu
    rw [hs2cnt]
    have hvid : ({ parent with last_generated := some today } : Task).id
        = parent.id := rfl
    rw [hvid, if_pos rfl, hpid, hzero]
  · rw [if_neg hc] at hfu
    subst hfu
    rcases hu2 with hu1 | hunew
    · rw [hs2cnt]
      by_cases hq : parent.id = u.id
      · rw [if_pos hq, ← hq, hpid, hzero]
      · rw [if_neg hq]
        have := hinv1 u hu1 hvp hvr
        omega
    · simp only [List.mem_singleton] at hunew
      exfalso
      rw [hunew] at hvr
      simp [spawnInstance, defaultTask] at hvr

theorem act_preserves_inv (today : Date) (s : State) (id : Nat) (t : Task)
    (s' : State)
    (hfind : findTask s id = some t)
    (hpend : ¬ t.status = 1)
    (hwf : WF s)
    (hrun : apply_completion_toggle today s id = some s')
    (hinv : atMostOnePending s) : atMostOnePending s' := by
  have hmem := findTask_mem hfind
  have hinv1 : atMostOnePending (saveTask s (toggleStatus today t)) :=
    inv_saveTask_toggle today s t hpend hinv hmem
  have hwf1 : WF (saveTask s (toggleStatus today t)) := WF_saveTask _ hwf
  unfold apply_completion_toggle at hrun
  rw [hfind] at hrun
  dsimp only at hrun
  by_cases h1 : ((toggleStatus today t).status == 1) = true
  · rw [if_pos h1] at hrun
    cases hp : (toggleStatus today t).parent_task with
    | none =>
      rw [hp] at hrun
      rw [← Option.some.inj hrun]
      exact hinv1
    | some pid =>
      rw [hp] at hrun
      dsimp only at hrun
      cases hfp : findTask (saveTask s (toggleStatus today t)) pid with
      | none =>
        rw [hfp] at hrun
        rw [← Option.some.inj hrun]
        exact hinv1
      | some parent =>
        rw [hfp] at hrun
        dsimp only at hrun
        by_cases h2 : (parent.is_recurring && !parent.archived) = true
        · rw [if_pos h2] at hrun
          by_cases h3 : hasPendingInstance (saveTask s (toggleStatus today t)) pid
              = true
          · rw [if_pos h3] at hrun
            rw [← Option.some.inj hrun]
            exact hinv1
          · rw [if_neg h3] at hrun
            rw [← Option.some.inj hrun]
            exact inv_spawn_case today _ pid parent hwf1 hinv1 hfp
              (by simpa using h3)
        · rw [if_neg h2] at hrun
          rw [← Option.some.inj hrun]
          exact hinv1
  · rw [if_neg h1] at hrun
    rw [← Option.some.inj hrun]
    exact hinv1

/-- C1 (amended): the one-pending-instance-per-template invariant is preserved
by any sequence of completion toggles in which every toggled task is Pending
at its turn (each toggle is a Pending-to-Complete transition): the spawn in
`status_htmx` only fires when no pending non-archived instance of the template
exists, so it never creates a second one. Sequences that revert a Complete
instance back to Pending (see the counterexample), or edits that re-enable
recurrence or set an instance's status, are not covered and can break the
invariant. -/
theorem c1_pending_invariant_preserved (today : Date) (ids : List Nat) :
    ∀ (s : State), WF s → atMostOnePending s →
      pendingAtTurn today s ids = true →
      atMostOnePending (runCompletions today s ids) := by
  induction ids with
  | nil =>
    intro s _ hinv _
    exact hinv
  | cons id rest ih =>
    intro s hwf hinv hok
    unfold pendingAtTurn at hok
    cases hfind : findTask s id with
    | none =>
      rw [hfind] at hok
      cases hok
    | some t =>
      rw [hfind] at hok
      dsimp only at hok
      rw [Bool.and_eq_true] at hok
      obtain ⟨hpend, hok2⟩ := hok
      cases hrun : apply_completion_toggle today s id with
      | none =>
        rw [hrun] at hok2
        cases hok2
      | some s1 =>
        rw [hrun] at hok2
        unfold runCompletions
        rw [hrun]
        exact ih s1 (act_preserves_WF hrun hwf)
          (act_preserves_inv today s id t s1 hfind (by simpa using hpend)
            hwf hrun hinv)
          hok2

/-- Witness for C1 (amended): completing the single pending instance of the
template preserves the invariant. -/
theorem c1_pending_invariant_preserved_witness :
    WF exState
    ∧ atMostOnePending exState
    ∧ pendingAtTurn d0 exState [2] = true
    ∧ atMostOnePending (runCompletions d0 exState [2]) :=
  ⟨by decide, by decide, by decide,
    c1_pending_invariant_preserved d0 [2] exState
      (by decide) (by decide) (by decide)⟩

end Cloudportal
